import Mathlib

/-!
Shallow embedding of the lox-ts tree-walking interpreter (scanner, parser,
resolver, interpreter) together with theorems settling the specification
claims.  Every definition is translated from the TypeScript source of the
repository; comments name the source file and function each definition embeds.
JS `number` values (IEEE-754 doubles) are modelled as rationals; the claims
settled here do not depend on floating-point rounding.
-/

/-- Token types, from `src/token.ts` (`TokenType`).  Constructor names are
camel-cased versions of the source's SCREAMING_SNAKE strings. -/
inductive TokenType where
  | leftParen | rightParen | leftBrace | rightBrace | comma | dot
  | minus | plus | semicolon | slash | star
  | bang | bangEqual | equal | equalEqual
  | greater | greaterEqual | less | lessEqual
  | identifier | string | number
  | kwAnd | kwClass | kwElse | kwFalse | kwFun | kwFor | kwIf | kwNil
  | kwOr | kwPrint | kwReturn | kwSuper | kwThis | kwTrue | kwVar | kwWhile
  | eof
  deriving DecidableEq, Repr

/-- Token literal payloads.  In the source the literal field has type
`LoxObject`; the scanner only ever stores `null`, numbers and strings, while
`tokenFactory.createTrue` stores the boolean `true`. -/
inductive Lit where
  | nil
  | num (value : ℚ)
  | str (value : String)
  | bool (value : Bool)
  deriving DecidableEq, Repr

/-- `Token` from `src/token.ts`. -/
structure Token where
  type : TokenType
  lexeme : String
  literal : Lit
  line : Nat
  deriving DecidableEq, Repr

/-- The fixed keyword table `keywords` from `src/token.ts`. -/
def keywords : List (String × TokenType) :=
  [("and", .kwAnd), ("class", .kwClass), ("else", .kwElse), ("false", .kwFalse),
   ("for", .kwFor), ("fun", .kwFun), ("if", .kwIf), ("nil", .kwNil),
   ("or", .kwOr), ("print", .kwPrint), ("return", .kwReturn),
   ("super", .kwSuper), ("this", .kwThis), ("true", .kwTrue),
   ("var", .kwVar), ("while", .kwWhile)]

/-- `isDigit` from the scanner: charCode comparisons against '0'..'9'. -/
def isDigitC (c : Char) : Bool :=
  '0'.toNat ≤ c.toNat && c.toNat ≤ '9'.toNat

/-- `isAlpha` from the scanner: a-z, A-Z or underscore by charCode. -/
def isAlphaC (c : Char) : Bool :=
  ('a'.toNat ≤ c.toNat && c.toNat ≤ 'z'.toNat) ||
  ('A'.toNat ≤ c.toNat && c.toNat ≤ 'Z'.toNat) ||
  c.toNat = '_'.toNat

/-- `isAlphaNumeric` from the scanner. -/
def isAlphaNumericC (c : Char) : Bool := isAlphaC c || isDigitC c

/-- Digit run to a natural number (helper for `parseNumberLexeme`). -/
def digitsToNat (cs : List Char) : Nat :=
  cs.foldl (fun acc c => 10 * acc + (c.toNat - '0'.toNat)) 0

/-- Models `Number.parseFloat` on the exact lexeme shapes the scanner's
`number()` produces: `digits ("." digits)?`. -/
def parseNumberLexeme (cs : List Char) : ℚ :=
  let intPart := cs.takeWhile fun c => isDigitC c
  let rest := cs.dropWhile fun c => isDigitC c
  match rest with
  | '.' :: frac => (digitsToNat intPart : ℚ) + (digitsToNat frac : ℚ) / ((10 : ℚ) ^ frac.length)
  | _ => (digitsToNat intPart : ℚ)

/-- Scanner cursor state, from the `Scanner` class fields (`source`,
`startIndex`, `currentIndex`, `line`, `tokens`) plus the reported syntax
errors (message, line) collected by the error reporter. -/
structure ScanState where
  source : List Char
  startIndex : Nat
  currentIndex : Nat
  line : Nat
  tokens : List Token
  errors : List (String × Nat)
  deriving Repr

/-- `Scanner.isAtEnd`. -/
def isAtEndS (st : ScanState) : Bool := st.source.length ≤ st.currentIndex

/-- `Scanner.peek`: NUL when at end. -/
def peekC (st : ScanState) : Char :=
  if isAtEndS st then '\x00' else st.source.getD st.currentIndex '\x00'

/-- `Scanner.peekNext`. -/
def peekNextC (st : ScanState) : Char :=
  if st.source.length ≤ st.currentIndex + 1 then '\x00'
  else st.source.getD (st.currentIndex + 1) '\x00'

/-- `Scanner.advance`: return the character at `currentIndex` and bump the
cursor (in JS an out-of-range read yields `undefined`; it is never used). -/
def advanceC (st : ScanState) : Char × ScanState :=
  (st.source.getD st.currentIndex '\x00', { st with currentIndex := st.currentIndex + 1 })

/-- `Scanner.match(expected)`. -/
def matchC (expected : Char) (st : ScanState) : Bool × ScanState :=
  if isAtEndS st || st.source.getD st.currentIndex '\x00' ≠ expected then (false, st)
  else (true, { st with currentIndex := st.currentIndex + 1 })

/-- The lexeme `source.substring(startIndex, currentIndex)`. -/
def lexChars (st : ScanState) : List Char :=
  (st.source.drop st.startIndex).take (st.currentIndex - st.startIndex)

/-- `Scanner.addToken(type, literal = null)`. -/
def addToken (st : ScanState) (type : TokenType) (literal : Lit) : ScanState :=
  { st with tokens := st.tokens ++ [⟨type, String.mk (lexChars st), literal, st.line⟩] }

/-- `errorReporter.report(new SyntaxError(message, line))` as seen from the
scanner: record the message and line. -/
def reportScan (st : ScanState) (message : String) : ScanState :=
  { st with errors := st.errors ++ [(message, st.line)] }

/-- The `while (isAlphaNumeric(this.peek())) advance()` loop of
`Scanner.identifier` (fuel-indexed; any fuel at least the remaining source
length behaves like the JS loop). -/
def identifierLoop : Nat → ScanState → ScanState
  | 0, st => st
  | n + 1, st =>
    if isAlphaNumericC (peekC st) then identifierLoop n (advanceC st).2 else st

/-- `Scanner.identifier`: scan the run, look the lexeme up in `keywords`,
emit the keyword token or IDENTIFIER.  Note `addToken` is called without a
literal argument, so every keyword token carries the `nil` literal. -/
def scanIdentifier (n : Nat) (st : ScanState) : ScanState :=
  let st := identifierLoop n st
  let text := String.mk (lexChars st)
  addToken st ((keywords.lookup text).getD .identifier) .nil

/-- The `while (isDigit(this.peek())) advance()` loop of `Scanner.number`. -/
def digitsLoop : Nat → ScanState → ScanState
  | 0, st => st
  | n + 1, st =>
    if isDigitC (peekC st) then digitsLoop n (advanceC st).2 else st

/-- The fractional part of `Scanner.number`: `do { advance() } while
(isDigit(peek))` once a `.` followed by a digit is seen. -/
def scanNumberFrac (n : Nat) (st1 : ScanState) : ScanState :=
  if peekC st1 = '.' && isDigitC (peekNextC st1) then
    digitsLoop n (advanceC st1).2
  else st1

/-- `Scanner.number`: integer digits, optional fractional part, then a
NUMBER token whose literal is the parsed lexeme. -/
def scanNumber (n : Nat) (st : ScanState) : ScanState :=
  let st2 := scanNumberFrac n (digitsLoop n st)
  addToken st2 .number (.num (parseNumberLexeme (lexChars st2)))

/-- The consume-until-closing-quote loop of `Scanner.string` (newlines bump
`line`). -/
def stringLoop : Nat → ScanState → ScanState
  | 0, st => st
  | n + 1, st =>
    if peekC st ≠ '"' && !isAtEndS st then
      let st := if peekC st = '\n' then { st with line := st.line + 1 } else st
      stringLoop n (advanceC st).2
    else st

/-- The terminated-string tail of `Scanner.string`: consume the closing
quote and emit a STRING token whose literal is
`substring(startIndex + 1, currentIndex - 1)`. -/
def scanStringFinish (st0 : ScanState) : ScanState :=
  let st := (advanceC st0).2
  addToken st .string
    (.str (String.mk ((st.source.drop (st.startIndex + 1)).take
      (st.currentIndex - 1 - (st.startIndex + 1)))))

/-- `Scanner.string`: on end of input report "Unterminated string." and stop,
otherwise finish the token. -/
def scanString (n : Nat) (st : ScanState) : ScanState :=
  let st := stringLoop n st
  if isAtEndS st then reportScan st "Unterminated string."
  else scanStringFinish st

/-- `Scanner.inlineComment`: consume until newline or end of file. -/
def inlineCommentLoop : Nat → ScanState → ScanState
  | 0, st => st
  | n + 1, st =>
    if peekC st ≠ '\n' && !isAtEndS st then inlineCommentLoop n (advanceC st).2 else st

/-- The loop of `Scanner.blockComment`, embedded with the source's exact
(buggy) condition `peek() !== "*" && peekNext() !== "/" && !isAtEnd()`:
the loop already stops when the NEXT character is `/` or the current one is
`*`, not only at a full `*/`. -/
def blockCommentLoop : Nat → ScanState → ScanState
  | 0, st => st
  | n + 1, st =>
    if peekC st ≠ '*' && peekNextC st ≠ '/' && !isAtEndS st then
      let st := if peekC st = '\n' then { st with line := st.line + 1 } else st
      blockCommentLoop n (advanceC st).2
    else st

/-- `Scanner.blockComment`: run the loop; at end of input report
"Unterminated comment." (at the scanner's current `line`), otherwise advance
twice ("consume the closing star and slash"). -/
def blockComment (n : Nat) (st : ScanState) : ScanState :=
  let st := blockCommentLoop n st
  if isAtEndS st then reportScan st "Unterminated comment."
  else (advanceC (advanceC st).2).2

/-- The one- or two-character operator cases of `scanToken`
(`addToken(match("=") ? two : one)`). -/
def scanOperator2 (st : ScanState) (two one : TokenType) : ScanState :=
  let (m, st) := matchC '=' st
  addToken st (if m then two else one) .nil

/-- The `/` case of `scanToken`: line comment, block comment, or SLASH. -/
def scanSlash (n : Nat) (st : ScanState) : ScanState :=
  let (m1, st1) := matchC '/' st
  if m1 then inlineCommentLoop n st1
  else
    let (m2, st2) := matchC '*' st1
    if m2 then blockComment n st2
    else addToken st2 .slash .nil

/-- `Scanner.scanToken`: the dispatch `switch` on one consumed character
(the two-character-operator and `/` cases are the helpers above; the
default case tries digits, then identifier characters, then reports). -/
def scanTokenChar (n : Nat) (c : Char) (st : ScanState) : ScanState :=
  match c with
  | '(' => addToken st .leftParen .nil
  | ')' => addToken st .rightParen .nil
  | '{' => addToken st .leftBrace .nil
  | '}' => addToken st .rightBrace .nil
  | ',' => addToken st .comma .nil
  | '.' => addToken st .dot .nil
  | '-' => addToken st .minus .nil
  | '+' => addToken st .plus .nil
  | ';' => addToken st .semicolon .nil
  | '*' => addToken st .star .nil
  | '!' => scanOperator2 st .bangEqual .bang
  | '=' => scanOperator2 st .equalEqual .equal
  | '<' => scanOperator2 st .lessEqual .less
  | '>' => scanOperator2 st .greaterEqual .greater
  | '/' => scanSlash n st
  | ' ' | '\r' | '\t' => st
  | '\n' => { st with line := st.line + 1 }
  | '"' => scanString n st
  | c =>
    if isDigitC c then scanNumber n st
    else if isAlphaC c then scanIdentifier n st
    else reportScan st ("Unexpected character '" ++ String.mk [c] ++ "'")

/-- `Scanner.scanToken`: consume one character and dispatch. -/
def scanToken (n : Nat) (st : ScanState) : ScanState :=
  let (c, st) := advanceC st
  scanTokenChar n c st

/-- The `while (!this.isAtEnd()) { startIndex := currentIndex; scanToken() }`
loop of `Scanner.scanTokens`. -/
def scanTokensGo : Nat → ScanState → ScanState
  | 0, st => st
  | n + 1, st =>
    if !isAtEndS st then
      scanTokensGo n (scanToken n { st with startIndex := st.currentIndex })
    else st

/-- `Scanner.scanTokens` on a whole source string: run the loop then push
`tokenFactory.createEof(line)`.  The fuel `source.length + 1` dominates every
loop (each iteration consumes at least one character). -/
def scanTokensState (source : String) : ScanState :=
  let st0 : ScanState := ⟨source.toList, 0, 0, 1, [], []⟩
  let st := scanTokensGo (source.toList.length + 1) st0
  { st with tokens := st.tokens ++ [⟨.eof, "", .nil, st.line⟩] }

/-- The token list returned by `Scanner.scanTokens`. -/
def scanTokens (source : String) : List Token := (scanTokensState source).tokens

/-- Spec-side definition: the final (last) 1-based line of a source string,
`1 +` the number of newline characters. -/
def specFinalLine (source : String) : Nat :=
  1 + source.toList.countP (· = '\n')

/-! ### Abstract syntax trees

`Expr`/`Stmt` from `src/expression.ts` and `src/statement.ts`.  The resolver
side table and the interpreter's `locals` map are keyed on expression-node
identity in the source; following the spec's design note, `Variable` and
`Assign` nodes carry a parse-time integer id standing for that identity. -/

mutual
inductive Expr where
  | lit (value : Lit)
  | grouping (expression : Expr)
  | unary (operator : Token) (right : Expr)
  | binary (left : Expr) (operator : Token) (right : Expr)
  | logical (left : Expr) (operator : Token) (right : Expr)
  | varE (id : Nat) (name : Token)
  | assign (id : Nat) (name : Token) (value : Expr)
  | call (callee : Expr) (args : List Expr) (closingParen : Token)
  deriving Repr

inductive Stmt where
  | exprStmt (expr : Expr)
  | print (expr : Expr)
  | varStmt (name : Token) (init : Option Expr)
  | block (statements : List Stmt)
  | ifStmt (condition : Expr) (thenBranch : Stmt) (elseBranch : Option Stmt)
  | whileStmt (condition : Expr) (body : Stmt)
  | functionStmt (name : Token) (params : List Token) (body : List Stmt)
  | returnStmt (keyword : Token) (value : Option Expr)
  | classStmt (name : Token) (methods : List Stmt)
  deriving Repr
end

/-! ### Parser

Embedding of `src/parser.ts`.  The parser is a state machine over the token
list with a `currentIndex` cursor; thrown `SyntaxError`s become the error
component of the result, reported errors accumulate in the state (the
source's error reporter). -/

/-- `SyntaxError(message, line, where?)` from `src/error.ts`. -/
structure SynErr where
  message : String
  line : Nat
  whereAt : Option String
  deriving DecidableEq, Repr

/-- Parser state: token cursor, fresh-id counter for `Variable`/`Assign`
nodes (node identity), and the reported errors. -/
structure PState where
  tokens : List Token
  currentIndex : Nat
  nextId : Nat
  errors : List SynErr
  deriving Repr

/-- Parser computations: state in, `Except` result plus state out (the state
survives a thrown `SyntaxError`, as with JS exceptions). -/
def PM (α : Type) : Type := PState → Except SynErr α × PState

instance : Monad PM where
  pure a := fun s => (.ok a, s)
  bind m f := fun s =>
    match m s with
    | (.ok a, s1) => f a s1
    | (.error e, s1) => (.error e, s1)

/-- `Parser.peek()`; the token list is always EOF-terminated so the default
is never read on scanner-produced input. -/
def peekT (s : PState) : Token := s.tokens.getD s.currentIndex ⟨.eof, "", .nil, 0⟩

/-- `Parser.previous()`. -/
def previousT (s : PState) : Token := s.tokens.getD (s.currentIndex - 1) ⟨.eof, "", .nil, 0⟩

/-- `Parser.isAtEnd()`. -/
def isAtEndT (s : PState) : Bool := (peekT s).type = .eof

/-- `Parser.check(type)`. -/
def checkT (s : PState) (type : TokenType) : Bool :=
  if isAtEndT s then false else (peekT s).type = type

/-- `Parser.advance()`. -/
def advanceT : PM Token := fun s =>
  let s1 := if isAtEndT s then s else { s with currentIndex := s.currentIndex + 1 }
  (.ok (previousT s1), s1)

/-- `Parser.match(...types)`. -/
def matchT (types : List TokenType) : PM Bool := fun s =>
  match types.find? (fun ty => checkT s ty) with
  | some _ => (advanceT >>= fun _ => pure true) s
  | none => (.ok false, s)

/-- `Parser.check` lifted into the monad (used by `forStatement` and others
via `this.check(...)`). -/
def checkM (type : TokenType) : PM Bool := fun s => (.ok (checkT s type), s)

/-- `Parser.error(token, message)`: build the `SyntaxError` (" at end" at EOF,
otherwise " at <lexeme>"), report it, and return it. -/
def errorT (token : Token) (message : String) : PM SynErr := fun s =>
  let e : SynErr :=
    if token.type = .eof then ⟨message, token.line, some "at end"⟩
    else ⟨message, token.line, some ("at " ++ token.lexeme)⟩
  (.ok e, { s with errors := s.errors ++ [e] })

/-- `throw this.error(token, message)`. -/
def throwErr {α : Type} (token : Token) (message : String) : PM α := fun s =>
  match errorT token message s with
  | (.ok e, s1) => (.error e, s1)
  | (.error e, s1) => (.error e, s1)

/-- `Parser.consume(type, message)`. -/
def consumeT (type : TokenType) (message : String) : PM Token := fun s =>
  if checkT s type then advanceT s else throwErr (peekT s) message s

/-- Fresh node id for a `Variable`/`Assign` expression (node identity). -/
def freshId : PM Nat := fun s => (.ok s.nextId, { s with nextId := s.nextId + 1 })

/-- Fuel-exhaustion artifact; never reached when the fuel dominates the
recursion depth of the program being parsed. -/
def outOfFuelErr {α : Type} : PM α := fun s => (.error ⟨"out of fuel", 0, none⟩, s)

/-- `Parser.synchronize()`: discard tokens until a statement boundary. -/
def synchronizeLoop : Nat → PM Unit
  | 0 => fun s => (.ok (), s)
  | n + 1 => fun s =>
    if !isAtEndT s then
      if (previousT s).type = .semicolon then (.ok (), s)
      else
        match (peekT s).type with
        | .kwClass | .kwFun | .kwVar | .kwFor | .kwIf | .kwWhile
        | .kwPrint | .kwReturn => (.ok (), s)
        | _ => (advanceT >>= fun _ => synchronizeLoop n) s
    else (.ok (), s)

/-- `Parser.synchronize()` (advance once, then the loop). -/
def synchronizeT (n : Nat) : PM Unit := do
  let _ ← advanceT
  synchronizeLoop n

mutual

/-- `Parser.declaration()`: FUN / VAR / statement, catching `SyntaxError`
(synchronize, produce `null`). -/
def parseDeclaration : Nat → PM (Option Stmt)
  | 0 => outOfFuelErr
  | n + 1 => fun s =>
    let body : PM Stmt := do
      if ← matchT [.kwFun] then parseFunctionDecl n "function"
      else if ← matchT [.kwVar] then parseVarDecl n
      else parseStatement n
    match body s with
    | (.ok stmt, s1) => (.ok (some stmt), s1)
    | (.error _, s1) => ((synchronizeT n) >>= fun _ => pure none) s1

/-- `Parser.functionDeclaration(kind)`. -/
def parseFunctionDecl : Nat → String → PM Stmt
  | 0, _ => outOfFuelErr
  | n + 1, kind => do
    let name ← consumeT .identifier ("Expect " ++ kind ++ " name.")
    let _ ← consumeT .leftParen ("Expect '(' after " ++ kind ++ " name.")
    let params ←
      if ← checkM .rightParen then pure []
      else parseParamsLoop n []
    let _ ← consumeT .rightParen "Expect ')' after parameters."
    let _ ← consumeT .leftBrace ("Expect '\x7b' before " ++ kind ++ " body.")
    let body ← parseBlock n
    pure (Stmt.functionStmt name params body)

/-- The `do { ... } while (this.match("COMMA"))` parameter loop of
`functionDeclaration`, including the non-fatal 255-parameter report. -/
def parseParamsLoop : Nat → List Token → PM (List Token)
  | 0, _ => outOfFuelErr
  | n + 1, acc => do
    if 255 ≤ acc.length then
      let _ ← fun s => errorT (peekT s) "Can't have more than 255 parameters" s
      pure ()
    let p ← consumeT .identifier "Expect parameter name."
    if ← matchT [.comma] then parseParamsLoop n (acc ++ [p])
    else pure (acc ++ [p])

/-- `Parser.varDeclaration()`. -/
def parseVarDecl : Nat → PM Stmt
  | 0 => outOfFuelErr
  | n + 1 => do
    let varName ← consumeT .identifier "Expect variable name."
    let init ←
      if ← matchT [.equal] then some <$> parseExpression n
      else pure none
    let _ ← consumeT .semicolon "Expect ';' after declaration."
    pure (Stmt.varStmt varName init)

/-- `Parser.statement()`. -/
def parseStatement : Nat → PM Stmt
  | 0 => outOfFuelErr
  | n + 1 => do
    if ← matchT [.kwFor] then parseForStatement n
    else if ← matchT [.kwIf] then parseIfStatement n
    else if ← matchT [.kwPrint] then parsePrintStatement n
    else if ← matchT [.kwReturn] then parseReturnStatement n
    else if ← matchT [.kwWhile] then parseWhileStatement n
    else if ← matchT [.leftBrace] then Stmt.block <$> parseBlock n
    else parseExpressionStatement n

/-- The initializer clause of `Parser.forStatement`:
`match(";") ? null : match("var") ? varDeclaration() : expressionStatement()`. -/
def parseForInit : Nat → PM (Option Stmt)
  | 0 => outOfFuelErr
  | n + 1 => do
    if ← matchT [.semicolon] then pure none
    else if ← matchT [.kwVar] then some <$> parseVarDecl n
    else some <$> parseExpressionStatement n

/-- The condition clause of `Parser.forStatement`: `check(";") ?
new LiteralExpr(true) : expression()` (the condition defaults to true). -/
def parseForCond : Nat → PM Expr
  | 0 => outOfFuelErr
  | n + 1 => do
    if ← checkM .semicolon then pure (Expr.lit (.bool true))
    else parseExpression n

/-- The increment clause of `Parser.forStatement`: `check(")") ? null :
expression()`. -/
def parseForInc : Nat → PM (Option Expr)
  | 0 => outOfFuelErr
  | n + 1 => do
    if ← checkM .rightParen then pure none
    else some <$> parseExpression n

/-- `Parser.forStatement()`: parse the clauses, then desugar into a while
loop, wrapping the body with the increment and the loop with the initializer
when present. -/
def parseForStatement : Nat → PM Stmt
  | 0 => outOfFuelErr
  | n + 1 => do
    let _ ← consumeT .leftParen "Expect '(' after 'for'."
    let init ← parseForInit n
    let condition ← parseForCond n
    let _ ← consumeT .semicolon "Expect ';' after loop condition."
    let increment ← parseForInc n
    let _ ← consumeT .rightParen "Expect ')' after for clauses."
    let body0 ← parseStatement n
    let body1 :=
      match increment with
      | some inc => Stmt.block [body0, Stmt.exprStmt inc]
      | none => body0
    let body2 := Stmt.whileStmt condition body1
    pure (match init with
      | some i => Stmt.block [i, body2]
      | none => body2)

/-- `Parser.ifStatement()`. -/
def parseIfStatement : Nat → PM Stmt
  | 0 => outOfFuelErr
  | n + 1 => do
    let _ ← consumeT .leftParen "Expect '(' after 'if'."
    let condition ← parseExpression n
    let _ ← consumeT .rightParen "Expect ')' after if condition."
    let thenBranch ← parseStatement n
    let elseBranch ←
      if ← matchT [.kwElse] then some <$> parseStatement n
      else pure none
    pure (Stmt.ifStmt condition thenBranch elseBranch)

/-- `Parser.printStatement()`. -/
def parsePrintStatement : Nat → PM Stmt
  | 0 => outOfFuelErr
  | n + 1 => do
    let value ← parseExpression n
    let _ ← consumeT .semicolon "Expect ';' after expression."
    pure (Stmt.print value)

/-- `Parser.returnStatement()`. -/
def parseReturnStatement : Nat → PM Stmt
  | 0 => outOfFuelErr
  | n + 1 => do
    let keyword ← fun s => (.ok (previousT s), s)
    let value ←
      if ← checkM .semicolon then pure none
      else some <$> parseExpression n
    let _ ← consumeT .semicolon "Expect ';' after return value."
    pure (Stmt.returnStmt keyword value)

/-- `Parser.whileStatement()`. -/
def parseWhileStatement : Nat → PM Stmt
  | 0 => outOfFuelErr
  | n + 1 => do
    let _ ← consumeT .leftParen "Expect '(' after 'while'."
    let condition ← parseExpression n
    let _ ← consumeT .rightParen "Expect ')' after while condition."
    let body ← parseStatement n
    pure (Stmt.whileStmt condition body)

/-- `Parser.expressionStatement()`. -/
def parseExpressionStatement : Nat → PM Stmt
  | 0 => outOfFuelErr
  | n + 1 => do
    let e ← parseExpression n
    let _ ← consumeT .semicolon "Expect ';' after expression."
    pure (Stmt.exprStmt e)

/-- The statement-collecting loop of `Parser.block()` (null declarations are
skipped). -/
def parseBlockLoop : Nat → List Stmt → PM (List Stmt)
  | 0, _ => outOfFuelErr
  | n + 1, acc => fun s =>
    if !checkT s .rightBrace && !isAtEndT s then
      (do
        let d ← parseDeclaration n
        match d with
        | some stmt => parseBlockLoop n (acc ++ [stmt])
        | none => parseBlockLoop n acc) s
    else (.ok acc, s)

/-- `Parser.block()`. -/
def parseBlock : Nat → PM (List Stmt)
  | 0 => outOfFuelErr
  | n + 1 => do
    let statements ← parseBlockLoop n []
    let _ ← consumeT .rightBrace "Expect '\x7d' after block."
    pure statements

/-- `Parser.expression()`. -/
def parseExpression : Nat → PM Expr
  | 0 => outOfFuelErr
  | n + 1 => parseAssignment n

/-- `Parser.assignment()`: parse an or-expression; on `=`, reinterpret a
`Variable` target as `Assign`, otherwise report (not throw) "Invalid
assignment target." and return the left side. -/
def parseAssignment : Nat → PM Expr
  | 0 => outOfFuelErr
  | n + 1 => do
    let expr ← parseLogicalOr n
    if ← matchT [.equal] then
      let equalsToken ← fun s => (.ok (previousT s), s)
      let value ← parseAssignment n
      match expr with
      | Expr.varE _ name => do
        let i ← freshId
        pure (Expr.assign i name value)
      | _ => do
        let _ ← errorT equalsToken "Invalid assignment target."
        pure expr
    else pure expr

/-- `Parser.logicalOr()` = `leftAssociativeLogicalOperators(logicalAnd, OR)`. -/
def parseLogicalOr : Nat → PM Expr
  | 0 => outOfFuelErr
  | n + 1 => do
    let e ← parseLogicalAnd n
    parseLogicalOrLoop n e

/-- The `while (match(OR))` loop, building left-nested `Logical` nodes. -/
def parseLogicalOrLoop : Nat → Expr → PM Expr
  | 0, _ => outOfFuelErr
  | n + 1, e => do
    if ← matchT [.kwOr] then
      let op ← fun s => (.ok (previousT s), s)
      let right ← parseLogicalAnd n
      parseLogicalOrLoop n (Expr.logical e op right)
    else pure e

/-- `Parser.logicalAnd()` = `leftAssociativeLogicalOperators(equality, AND)`. -/
def parseLogicalAnd : Nat → PM Expr
  | 0 => outOfFuelErr
  | n + 1 => do
    let e ← parseEquality n
    parseLogicalAndLoop n e

/-- The `while (match(AND))` loop. -/
def parseLogicalAndLoop : Nat → Expr → PM Expr
  | 0, _ => outOfFuelErr
  | n + 1, e => do
    if ← matchT [.kwAnd] then
      let op ← fun s => (.ok (previousT s), s)
      let right ← parseEquality n
      parseLogicalAndLoop n (Expr.logical e op right)
    else pure e

/-- `Parser.equality()` (specialisation of `leftAssociativeBinaryOperators`). -/
def parseEquality : Nat → PM Expr
  | 0 => outOfFuelErr
  | n + 1 => do
    let e ← parseComparison n
    parseEqualityLoop n e

/-- The `while (match(BANG_EQUAL, EQUAL_EQUAL))` loop. -/
def parseEqualityLoop : Nat → Expr → PM Expr
  | 0, _ => outOfFuelErr
  | n + 1, e => do
    if ← matchT [.bangEqual, .equalEqual] then
      let op ← fun s => (.ok (previousT s), s)
      let right ← parseComparison n
      parseEqualityLoop n (Expr.binary e op right)
    else pure e

/-- `Parser.comparison()`. -/
def parseComparison : Nat → PM Expr
  | 0 => outOfFuelErr
  | n + 1 => do
    let e ← parseTerm n
    parseComparisonLoop n e

/-- The `while (match(GREATER, GREATER_EQUAL, LESS, LESS_EQUAL))` loop. -/
def parseComparisonLoop : Nat → Expr → PM Expr
  | 0, _ => outOfFuelErr
  | n + 1, e => do
    if ← matchT [.greater, .greaterEqual, .less, .lessEqual] then
      let op ← fun s => (.ok (previousT s), s)
      let right ← parseTerm n
      parseComparisonLoop n (Expr.binary e op right)
    else pure e

/-- `Parser.term()`. -/
def parseTerm : Nat → PM Expr
  | 0 => outOfFuelErr
  | n + 1 => do
    let e ← parseFactor n
    parseTermLoop n e

/-- The `while (match(MINUS, PLUS))` loop. -/
def parseTermLoop : Nat → Expr → PM Expr
  | 0, _ => outOfFuelErr
  | n + 1, e => do
    if ← matchT [.minus, .plus] then
      let op ← fun s => (.ok (previousT s), s)
      let right ← parseFactor n
      parseTermLoop n (Expr.binary e op right)
    else pure e

/-- `Parser.factor()`. -/
def parseFactor : Nat → PM Expr
  | 0 => outOfFuelErr
  | n + 1 => do
    let e ← parseUnary n
    parseFactorLoop n e

/-- The `while (match(STAR, SLASH))` loop. -/
def parseFactorLoop : Nat → Expr → PM Expr
  | 0, _ => outOfFuelErr
  | n + 1, e => do
    if ← matchT [.star, .slash] then
      let op ← fun s => (.ok (previousT s), s)
      let right ← parseUnary n
      parseFactorLoop n (Expr.binary e op right)
    else pure e

/-- `Parser.unary()`. -/
def parseUnary : Nat → PM Expr
  | 0 => outOfFuelErr
  | n + 1 => do
    if ← matchT [.bang, .minus] then
      let op ← fun s => (.ok (previousT s), s)
      let right ← parseUnary n
      pure (Expr.unary op right)
    else parseCall n

/-- `Parser.call()`: primary followed by call suffixes. -/
def parseCall : Nat → PM Expr
  | 0 => outOfFuelErr
  | n + 1 => do
    let e ← parsePrimary n
    parseCallLoop n e

/-- The `while (true) { if (match(LEFT_PAREN)) finishCall else break }` loop. -/
def parseCallLoop : Nat → Expr → PM Expr
  | 0, _ => outOfFuelErr
  | n + 1, e => do
    if ← matchT [.leftParen] then
      let e1 ← parseFinishCall n e
      parseCallLoop n e1
    else pure e

/-- `Parser.finishCall(callee)`. -/
def parseFinishCall : Nat → Expr → PM Expr
  | 0, _ => outOfFuelErr
  | n + 1, callee => do
    let args ←
      if ← checkM .rightParen then pure []
      else parseArgsLoop n []
    let paren ← consumeT .rightParen "Expect ')' after arguments."
    pure (Expr.call callee args paren)

/-- The `do { ... } while (match(COMMA))` argument loop of `finishCall`,
including the non-fatal 255-argument report. -/
def parseArgsLoop : Nat → List Expr → PM (List Expr)
  | 0, _ => outOfFuelErr
  | n + 1, acc => do
    if 255 ≤ acc.length then
      let _ ← fun s => errorT (peekT s) "Can't have more than 255 arguments." s
      pure ()
    let a ← parseExpression n
    if ← matchT [.comma] then parseArgsLoop n (acc ++ [a])
    else pure (acc ++ [a])

/-- `Parser.primary()`. -/
def parsePrimary : Nat → PM Expr
  | 0 => outOfFuelErr
  | n + 1 => do
    if ← matchT [.kwFalse] then pure (Expr.lit (.bool false))
    else if ← matchT [.kwTrue] then pure (Expr.lit (.bool true))
    else if ← matchT [.kwNil] then pure (Expr.lit .nil)
    else if ← matchT [.number, .string] then
      fun s => (.ok (Expr.lit (previousT s).literal), s)
    else if ← matchT [.identifier] then do
      let name ← fun s => (.ok (previousT s), s)
      let i ← freshId
      pure (Expr.varE i name)
    else if ← matchT [.leftParen] then do
      let e ← parseExpression n
      let _ ← consumeT .rightParen "Expect ')' after expression."
      pure (Expr.grouping e)
    else fun s => throwErr (peekT s) "Expect expression." s

end

/-- The `while (!isAtEnd()) declaration()` loop of `Parser.parse()`. -/
def parseProgramLoop : Nat → List Stmt → PM (List Stmt)
  | 0, _ => outOfFuelErr
  | n + 1, acc => fun s =>
    if !isAtEndT s then
      match parseDeclaration n s with
      | (.ok (some stmt), s1) => parseProgramLoop n (acc ++ [stmt]) s1
      | (.ok none, s1) => parseProgramLoop n acc s1
      | (.error e, s1) => (.error e, s1)
    else (.ok acc, s)

/-- `Parser.parse()` on a token list. -/
def parseProgram (tokens : List Token) : Except SynErr (List Stmt) × PState :=
  parseProgramLoop (tokens.length * 8 + 8) [] ⟨tokens, 0, 0, []⟩

/-! ### Runtime values and environments

From `src/types.ts` (the revision with classes: `LoxObject`, `LoxCallable`,
`LoxFunction`, `LoxReturn`, `LoxClass`, `LoxInstance`) and
`src/environment.ts` (the revision with `enclosing`, `assignAt`, `getAt`,
`ancestor`).  Environments and instances are mutable objects in JS; they are
modelled as entries in explicit stores indexed by allocation order, so
object identity is store index. -/

/-- `LoxFunction`: declaration (name, params, body), captured closure
environment (store index), and the `isInitializer` flag. -/
structure FnData where
  name : Token
  params : List Token
  body : List Stmt
  closure : Nat
  isInitializer : Bool
  deriving Repr

/-- `LoxClass`: name, optional superclass, methods keyed by name. -/
inductive ClsData where
  | mk (name : String) (superClass : Option ClsData) (methods : List (String × FnData))
  deriving Repr

def ClsData.name : ClsData → String
  | .mk n _ _ => n

def ClsData.superClass : ClsData → Option ClsData
  | .mk _ s _ => s

def ClsData.methods : ClsData → List (String × FnData)
  | .mk _ _ m => m

/-- `LoxObject`.  `undefined` is the JS `undefined` that `Environment.getAt`
returns for a name missing at the resolved environment; `clock` is the one
native `LoxClock` value.  Equality of `fn`/`cls` values approximates JS
reference identity (no claim settled here compares function or class
values). -/
inductive Value where
  | nil
  | undefined
  | bool (b : Bool)
  | num (q : ℚ)
  | str (s : String)
  | fn (f : FnData)
  | cls (c : ClsData)
  | inst (ref : Nat)
  | clock
  deriving Repr

/-- A JS `Record<string, LoxObject>` / `Map` as an association list:
`hasOwnProperty`-style lookup. -/
def aGet {α : Type} (m : List (String × α)) (key : String) : Option α :=
  m.lookup key

/-- `record[key] = v`: replace in place if present, append otherwise. -/
def aSet {α : Type} (m : List (String × α)) (key : String) (v : α) : List (String × α) :=
  if (m.lookup key).isSome then
    m.map fun kv => if kv.1 = key then (key, v) else kv
  else m ++ [(key, v)]

/-- One `Environment` object: `values` plus the `enclosing` pointer. -/
structure EnvData where
  values : List (String × Value)
  enclosing : Option Nat
  deriving Repr

/-- One `LoxInstance` object: its class and mutable field map. -/
structure InstData where
  klass : ClsData
  fields : List (String × Value)
  deriving Repr

/-- Runtime errors: `RuntimeError(token, message)` from `src/error.ts` and
the `RangeError` thrown by `Environment.ancestor`. -/
inductive Err where
  | runtime (token : Token) (message : String)
  | range (message : String)
  deriving Repr

/-- Interpreter state: the environment store (`globals` is index 0, the
`Interpreter` constructor installs `clock` there), the instance store, the
current `environment` pointer, the `locals` side table (expression id →
distance) and the text printed so far. -/
structure IState where
  envs : List EnvData
  insts : List InstData
  env : Nat
  locals : List (Nat × Nat)
  output : List String
  deriving Repr

/-- Read an environment from the store (out-of-range never happens for
states produced by execution). -/
def heapEnv (envs : List EnvData) (r : Nat) : EnvData :=
  envs.getD r ⟨[], none⟩

/-- Replace the environment at index `r`. -/
def setHeapEnv (envs : List EnvData) (r : Nat) (e : EnvData) : List EnvData :=
  envs.set r e

/-- `Environment.define(name, value)` on the environment `r`. -/
def envDefine (st : IState) (r : Nat) (name : String) (v : Value) : IState :=
  let e := heapEnv st.envs r
  { st with envs := setHeapEnv st.envs r { e with values := aSet e.values name v } }

/-- `Environment.ancestor(distance)`: walk `distance` hops up the
`enclosing` chain; `none` models the thrown `RangeError` ("Distance exceeds
the number of ancestor environments."). -/
def ancestorRef (envs : List EnvData) : Nat → Nat → Option Nat
  | r, 0 => some r
  | r, d + 1 =>
    match (heapEnv envs r).enclosing with
    | none => none
    | some p => ancestorRef envs p d

/-- `Environment.getAt(distance, name)`: `ancestor(distance).values[name]` —
note the missing-name case yields the JS `undefined`, not an error. -/
def envGetAt (envs : List EnvData) (r d : Nat) (name : String) : Except Err Value :=
  match ancestorRef envs r d with
  | none => .error (.range "Distance exceeds the number of ancestor environments.")
  | some a =>
    .ok (match aGet (heapEnv envs a).values name with
      | some v => v
      | none => .undefined)

/-- `Environment.assignAt(distance, name, value)`: write unconditionally into
the ancestor's value map. -/
def envAssignAt (envs : List EnvData) (r d : Nat) (name : String) (v : Value) :
    Except Err (List EnvData) :=
  match ancestorRef envs r d with
  | none => .error (.range "Distance exceeds the number of ancestor environments.")
  | some a =>
    let e := heapEnv envs a
    .ok (setHeapEnv envs a { e with values := aSet e.values name v })

/-- `Environment.get(name)`: look in this environment, else recurse into
`enclosing`, else `RuntimeError "Undefined variable 'x'."`.  The fuel bounds
the chain walk (any fuel above the store size covers every acyclic chain;
chains are acyclic by construction). -/
def envChainGet (envs : List EnvData) : Nat → Nat → Token → Except Err Value
  | 0, _, name =>
    .error (.runtime name ("Undefined variable '" ++ name.lexeme ++ "'."))
  | fuel + 1, r, name =>
    match aGet (heapEnv envs r).values name.lexeme with
    | some v => .ok v
    | none =>
      match (heapEnv envs r).enclosing with
      | some p => envChainGet envs fuel p name
      | none => .error (.runtime name ("Undefined variable '" ++ name.lexeme ++ "'."))

/-- `Environment.assign(name, value)`: assign where the name exists, walking
outward; `RuntimeError "Undefined variable 'x'."` if absent everywhere. -/
def envChainAssign (envs : List EnvData) : Nat → Nat → Token → Value → Except Err (List EnvData)
  | 0, _, name, _ =>
    .error (.runtime name ("Undefined variable '" ++ name.lexeme ++ "'."))
  | fuel + 1, r, name, v =>
    if (aGet (heapEnv envs r).values name.lexeme).isSome then
      let e := heapEnv envs r
      .ok (setHeapEnv envs r { e with values := aSet e.values name.lexeme v })
    else
      match (heapEnv envs r).enclosing with
      | some p => envChainAssign envs fuel p name v
      | none => .error (.runtime name ("Undefined variable '" ++ name.lexeme ++ "'."))

/-- The interpreter's `locals.get(expr)` (side table keyed on node id). -/
def lookupLocals : List (Nat × Nat) → Nat → Option Nat
  | [], _ => none
  | (k, v) :: tl, id => if k = id then some v else lookupLocals tl id

/-- `Interpreter.resolve(expr, depth)`: `locals.set(expr, depth)` — replace
the entry in place when the key exists, append otherwise. -/
def localsSet (locals : List (Nat × Nat)) (id d : Nat) : List (Nat × Nat) :=
  if (lookupLocals locals id).isSome then
    locals.map fun kv => if kv.1 = id then (id, d) else kv
  else locals ++ [(id, d)]

/-- `Interpreter.lookUpVariable(name, expr)`: side-table hit → `getAt` from
the current environment; miss → `globals.get` (store index 0). -/
def lookUpVariable (st : IState) (name : Token) (id : Nat) : Except Err Value :=
  match lookupLocals st.locals id with
  | none => envChainGet st.envs (st.envs.length + 1) 0 name
  | some d => envGetAt st.envs st.env d name.lexeme

/-- `isTruthy` from `src/interpreter.ts`: `null` is falsy, booleans are
themselves, everything else — including the JS `undefined` (its `typeof` is
not "boolean" and it is not `=== null`) — is truthy. -/
def isTruthy : Value → Bool
  | .nil => false
  | .bool b => b
  | _ => true

/-- A stand-in for JS `Number.prototype.toString` (shortest round-trip
decimal): exact for integers, which is all the settled claims evaluate. -/
def numToStr (q : ℚ) : String :=
  if q.den = 1 then toString q.num else toString q

/-- `stringify` from `src/interpreter.ts` plus the `toString` methods of the
value classes; instances render as "NAME instance" via their class, read from
the instance store. -/
def stringify (insts : List InstData) : Value → String
  | .nil => "nil"
  | .num q =>
    let text := numToStr q
    if text.endsWith ".0" then text.dropRight 2 else text
  | .bool b => if b then "true" else "false"
  | .str s => s
  | .fn f => "<fn " ++ f.name.lexeme ++ ">"
  | .cls c => c.name
  | .inst r => ((insts.getD r ⟨⟨"", none, []⟩, []⟩).klass).name ++ " instance"
  | .clock => "<native fn>"
  | .undefined => "undefined"

/-- JS `===` on `LoxObject`s: value equality on primitives, store-index
(reference) identity on instances.  Function/class values are compared
structurally here, an approximation of reference identity that no settled
claim relies on. -/
def jsStrictEq : Value → Value → Bool
  | .nil, .nil => true
  | .undefined, .undefined => true
  | .bool a, .bool b => a = b
  | .num a, .num b => a = b
  | .str a, .str b => a = b
  | .inst i, .inst j => i = j
  | .clock, .clock => true
  | _, _ => false

/-- The `typeof x === "number"` test used by `checkNumberOperand`. -/
def isNumV : Value → Bool
  | .num _ => true
  | _ => false

/-- The `typeof x === "string"` test in the PLUS case. -/
def isStrV : Value → Bool
  | .str _ => true
  | _ => false

/-- Numeric payload (only read under an `isNumV` guard). -/
def numOf : Value → ℚ
  | .num q => q
  | _ => 0

/-- The switch of `Interpreter.visitBinaryExpr`, applied to the two already
evaluated operands.  `checkNumberOperand` throws
`RuntimeError "Operand must be a number."` on the first non-number operand;
the PLUS case tests strings first, numbers second, and otherwise throws
`"Operands must be two numbers, or one operand must be a string."`.
Division is exact on ℚ (JS `x / 0` gives IEEE infinities instead; no settled
claim divides). -/
def binaryOperator (insts : List InstData) (optr : Token) (l r : Value) : Except Err Value :=
  let numCheck (res : ℚ → ℚ → Value) : Except Err Value :=
    if !isNumV l then .error (.runtime optr "Operand must be a number.")
    else if !isNumV r then .error (.runtime optr "Operand must be a number.")
    else .ok (res (numOf l) (numOf r))
  match optr.type with
  | .greater => numCheck fun a b => .bool (b < a)
  | .greaterEqual => numCheck fun a b => .bool (b ≤ a)
  | .less => numCheck fun a b => .bool (a < b)
  | .lessEqual => numCheck fun a b => .bool (a ≤ b)
  | .bangEqual => .ok (.bool (!jsStrictEq l r))
  | .equalEqual => .ok (.bool (jsStrictEq l r))
  | .minus => numCheck fun a b => .num (a - b)
  | .plus =>
    if isStrV l || isStrV r then
      .ok (.str (stringify insts l ++ stringify insts r))
    else if isNumV l && isNumV r then
      .ok (.num (numOf l + numOf r))
    else
      .error (.runtime optr "Operands must be two numbers, or one operand must be a string.")
  | .slash => numCheck fun a b => .num (a / b)
  | .star => numCheck fun a b => .num (a * b)
  | _ => .ok .nil

/-- The switch of `Interpreter.visitUnaryExpr` on the evaluated operand. -/
def unaryOperator (optr : Token) (v : Value) : Except Err Value :=
  match optr.type with
  | .bang => .ok (.bool (!isTruthy v))
  | .minus =>
    if isNumV v then .ok (.num (-(numOf v)))
    else .error (.runtime optr "Operand must be a number.")
  | _ => .ok .nil

/-- The parser stores token literals in `LiteralExpr.value : LoxObject`; at
runtime `visitLiteralExpr` returns that object unchanged.  This maps the
embedded literal to the runtime value (the identity in the source). -/
def litToValue : Lit → Value
  | .nil => .nil
  | .num q => .num q
  | .str s => .str s
  | .bool b => .bool b

/-- `LoxClass.findMethod(name)`: own methods first, then the superclass
chain. -/
def findMethod : ClsData → String → Option FnData
  | .mk _ sup methods, name =>
    match aGet methods name with
    | some f => some f
    | none =>
      match sup with
      | some sc => findMethod sc name
      | none => none

/-- `LoxFunction.arity()`. -/
def fnArity (f : FnData) : Nat := f.params.length

/-- `LoxClass.arity()`: the `init` method's arity, else 0. -/
def classArity (c : ClsData) : Nat :=
  match findMethod c "init" with
  | some f => fnArity f
  | none => 0

/-- `LoxFunction.bindInstance(instance)`: allocate a fresh environment over
the function's closure defining `this`, and return the rebound function. -/
def bindInstance (f : FnData) (instRef : Nat) (st : IState) : FnData × IState :=
  let envRef := st.envs.length
  let st1 := { st with envs := st.envs ++ [⟨[("this", Value.inst instRef)], some f.closure⟩] }
  ({ f with closure := envRef }, st1)

/-- `LoxFunction.forceReturnThis()`: `this.closure.getAt(0, "this")` (the
zero-distance `getAt` never range-errors and yields `undefined` for a
missing name). -/
def forceReturnThis (f : FnData) (st : IState) : Value :=
  match aGet (heapEnv st.envs f.closure).values "this" with
  | some v => v
  | none => .undefined

/-- Parameter binding in `LoxFunction.call`: `define(params[i], args[i])`
for each `i` (a missing argument reads as the JS `undefined`; the arity
check in `visitCallExpr` rules that out for interpreter-made calls). -/
def bindPairs : List Token → List Value → List (String × Value)
  | [], _ => []
  | p :: ps, [] => (p.lexeme, Value.undefined) :: bindPairs ps []
  | p :: ps, v :: vs => (p.lexeme, v) :: bindPairs ps vs

/-- The sequence of `define` calls as one value map (later duplicates
overwrite, as sequential `define` would). -/
def bindParams (params : List Token) (args : List Value) : List (String × Value) :=
  (bindPairs params args).foldl (fun acc pv => aSet acc pv.1 pv.2) []

/-- Expression results: a value, a thrown error, or fuel exhaustion (an
artifact of the embedding; never reached with enough fuel). -/
inductive ERes where
  | val (v : Value)
  | err (e : Err)
  | oot
  deriving Repr

/-- Statement results: normal completion, a thrown `LoxReturn`, a thrown
error, or fuel exhaustion. -/
inductive SRes where
  | done
  | ret (v : Value)
  | err (e : Err)
  | oot
  deriving Repr

/-- Argument-list results. -/
inductive LRes where
  | vals (vs : List Value)
  | err (e : Err)
  | oot
  deriving Repr

mutual

/-- `Interpreter.evaluate` / the `visit*Expr` methods of
`src/interpreter.ts`. -/
def evalExpr : Nat → Expr → IState → ERes × IState
  | 0, _, st => (.oot, st)
  | n + 1, e, st =>
    match e with
    | .lit v => (.val (litToValue v), st)
    | .grouping inner => evalExpr n inner st
    | .unary op right =>
      match evalExpr n right st with
      | (.val v, st1) =>
        (match unaryOperator op v with
          | .ok r => (.val r, st1)
          | .error err => (.err err, st1))
      | other => other
    | .binary left op right =>
      match evalExpr n left st with
      | (.val lv, st1) =>
        (match evalExpr n right st1 with
          | (.val rv, st2) =>
            (match binaryOperator st2.insts op lv rv with
              | .ok r => (.val r, st2)
              | .error err => (.err err, st2))
          | other => other)
      | other => other
    | .logical left op right =>
      match evalExpr n left st with
      | (.val lv, st1) =>
        if op.type = .kwOr then
          if isTruthy lv then (.val lv, st1) else evalExpr n right st1
        else if op.type = .kwAnd then
          if !isTruthy lv then (.val lv, st1) else evalExpr n right st1
        else evalExpr n right st1
      | other => other
    | .varE id name =>
      (match lookUpVariable st name id with
        | .ok v => (.val v, st)
        | .error err => (.err err, st))
    | .assign id name rhs =>
      match evalExpr n rhs st with
      | (.val v, st1) =>
        (match lookupLocals st1.locals id with
          | none =>
            (match envChainAssign st1.envs (st1.envs.length + 1) 0 name v with
              | .ok envs1 => (.val v, { st1 with envs := envs1 })
              | .error err => (.err err, st1))
          | some d =>
            (match envAssignAt st1.envs st1.env d name.lexeme v with
              | .ok envs1 => (.val v, { st1 with envs := envs1 })
              | .error err => (.err err, st1)))
      | other => other
    | .call callee args paren =>
      match evalExpr n callee st with
      | (.val cv, st1) =>
        (match evalArgsLoop n args [] st1 with
          | (.vals avs, st2) =>
            (match cv with
              | .fn f =>
                if avs.length ≠ fnArity f then
                  (.err (.runtime paren ("Expected " ++ toString (fnArity f) ++
                    " arguments but got " ++ toString avs.length ++ ".")), st2)
                else loxFunctionCall n f avs st2
              | .cls c =>
                if avs.length ≠ classArity c then
                  (.err (.runtime paren ("Expected " ++ toString (classArity c) ++
                    " arguments but got " ++ toString avs.length ++ ".")), st2)
                else loxClassCall n c avs st2
              | .clock =>
                if avs.length ≠ 0 then
                  (.err (.runtime paren ("Expected 0 arguments but got " ++
                    toString avs.length ++ ".")), st2)
                else (.val (.num 0), st2)
              | _ => (.err (.runtime paren "Can only call functions and classes."), st2))
          | (.err err, st2) => (.err err, st2)
          | (.oot, st2) => (.oot, st2))
      | other => other

/-- Left-to-right argument evaluation in `visitCallExpr`. -/
def evalArgsLoop : Nat → List Expr → List Value → IState → LRes × IState
  | 0, _, _, st => (.oot, st)
  | _ + 1, [], acc, st => (.vals acc, st)
  | n + 1, a :: rest, acc, st =>
    match evalExpr n a st with
    | (.val v, st1) => evalArgsLoop n rest (acc ++ [v]) st1
    | (.err e, st1) => (.err e, st1)
    | (.oot, st1) => (.oot, st1)

/-- `Interpreter.execute` / the `visit*Stmt` methods. -/
def execStmt : Nat → Stmt → IState → SRes × IState
  | 0, _, st => (.oot, st)
  | n + 1, stmt, st =>
    match stmt with
    | .block stmts =>
      -- visitBlockStmt: executeBlock(stmt.statements, new Environment(this.environment))
      let newRef := st.envs.length
      let st1 := { st with envs := st.envs ++ [⟨[], some st.env⟩] }
      executeBlock n stmts newRef st1
    | .classStmt name _methods =>
      -- visitClassStmt (src/interpreter.ts:230): define nil, build the class
      -- from the name alone, assign it back.
      let st1 := envDefine st st.env name.lexeme .nil
      (match envChainAssign st1.envs (st1.envs.length + 1) st1.env name
          (.cls (.mk name.lexeme none [])) with
        | .ok envs1 => (.done, { st1 with envs := envs1 })
        | .error e => (.err e, st1))
    | .exprStmt e =>
      (match evalExpr n e st with
        | (.val _, st1) => (.done, st1)
        | (.err err, st1) => (.err err, st1)
        | (.oot, st1) => (.oot, st1))
    | .functionStmt name params body =>
      -- visitFunctionStmt: new LoxFunction(stmt, this.environment); define.
      (.done, envDefine st st.env name.lexeme (.fn ⟨name, params, body, st.env, false⟩))
    | .ifStmt c t e? =>
      (match evalExpr n c st with
        | (.val v, st1) =>
          if isTruthy v then execStmt n t st1
          else
            (match e? with
              | some e => execStmt n e st1
              | none => (.done, st1))
        | (.err err, st1) => (.err err, st1)
        | (.oot, st1) => (.oot, st1))
    | .print e =>
      (match evalExpr n e st with
        | (.val v, st1) => (.done, { st1 with output := st1.output ++ [stringify st1.insts v] })
        | (.err err, st1) => (.err err, st1)
        | (.oot, st1) => (.oot, st1))
    | .returnStmt _kw v? =>
      -- visitReturnStmt: throw new LoxReturn(value ?? null)
      (match v? with
        | none => (.ret .nil, st)
        | some e =>
          match evalExpr n e st with
          | (.val v, st1) => (.ret v, st1)
          | (.err err, st1) => (.err err, st1)
          | (.oot, st1) => (.oot, st1))
    | .varStmt name init? =>
      (match init? with
        | none => (.done, envDefine st st.env name.lexeme .nil)
        | some e =>
          match evalExpr n e st with
          | (.val v, st1) => (.done, envDefine st1 st1.env name.lexeme v)
          | (.err err, st1) => (.err err, st1)
          | (.oot, st1) => (.oot, st1))
    | .whileStmt c b =>
      (match evalExpr n c st with
        | (.val v, st1) =>
          if isTruthy v then
            match execStmt n b st1 with
            | (.done, st2) => execStmt n (.whileStmt c b) st2
            | other => other
          else (.done, st1)
        | (.err err, st1) => (.err err, st1)
        | (.oot, st1) => (.oot, st1))

/-- Sequential statement execution (the loops in `interpret` and
`executeBlock`); a `LoxReturn` or error stops the sequence. -/
def execStmts : Nat → List Stmt → IState → SRes × IState
  | 0, _, st => (.oot, st)
  | _ + 1, [], st => (.done, st)
  | n + 1, s :: rest, st =>
    match execStmt n s st with
    | (.done, st1) => execStmts n rest st1
    | other => other

/-- `Interpreter.executeBlock(statements, environment)`: remember the current
environment, switch to the given one, run the statements, and restore the
previous environment on every exit path (the source's `try`/`finally`). -/
def executeBlock : Nat → List Stmt → Nat → IState → SRes × IState
  | 0, _, _, st => (.oot, st)
  | n + 1, stmts, envRef, st =>
    let previous := st.env
    let (r, st1) := execStmts n stmts { st with env := envRef }
    (r, { st1 with env := previous })

/-- `LoxFunction.call(interpreter, args)`: fresh environment over the
closure binding the parameters, run the body, catch `LoxReturn`.  The
source's `catch (caught)` clause swallows anything that is not a
`LoxReturn`, so an error thrown in the body also produces a normal return
(`this` for initializers, `null` otherwise). -/
def loxFunctionCall : Nat → FnData → List Value → IState → ERes × IState
  | 0, _, _, st => (.oot, st)
  | n + 1, f, args, st =>
    let envRef := st.envs.length
    let st1 := { st with envs := st.envs ++ [⟨bindParams f.params args, some f.closure⟩] }
    match executeBlock n f.body envRef st1 with
    | (.ret v, st2) =>
      if f.isInitializer then (.val (forceReturnThis f st2), st2) else (.val v, st2)
    | (.oot, st2) => (.oot, st2)
    | (.done, st2) | (.err _, st2) =>
      if f.isInitializer then (.val (forceReturnThis f st2), st2) else (.val .nil, st2)

/-- `LoxClass.call(interpreter, args)`: allocate the instance; if `init`
exists, bind it to the instance and call it (result discarded); return the
instance. -/
def loxClassCall : Nat → ClsData → List Value → IState → ERes × IState
  | 0, _, _, st => (.oot, st)
  | n + 1, c, args, st =>
    let iRef := st.insts.length
    let st1 := { st with insts := st.insts ++ [⟨c, []⟩] }
    match findMethod c "init" with
    | some f0 =>
      let (bound, st2) := bindInstance f0 iRef st1
      (match loxFunctionCall n bound args st2 with
        | (.oot, st3) => (.oot, st3)
        | (.err e, st3) => (.err e, st3)
        | (.val _, st3) => (.val (.inst iRef), st3))
    | none => (.val (.inst iRef), st1)

end

/-- The interpreter's initial state: `globals` at store index 0 with the one
native binding `clock` installed by the constructor. -/
def initIState : IState :=
  ⟨[⟨[("clock", Value.clock)], none⟩], [], 0, [], []⟩

/-! ### Resolver

From `src/resolver.ts`: only the parts claim C4 is about — the scope stack
and `resolveLocal`, plus `Interpreter.resolve` (`localsSet` above). -/

/-- One block scope: name → defined flag. -/
def Scope := List (String × Bool)

/-- `scope.hasOwnProperty(name)`. -/
def scopeHas (sc : Scope) (name : String) : Bool :=
  (List.lookup name sc).isSome

/-- The `for (let i = scopes.length - 1; i >= 0; i--)` loop of
`Resolver.resolveLocal`: the argument is one past the next index to try;
on a hit at index `i` the recorded distance is `scopes.length - 1 - i`. -/
def resolveLocalGo (scopes : List Scope) (name : String) : Nat → Option Nat
  | 0 => none
  | i + 1 =>
    if scopeHas (scopes.getD i []) name then some (scopes.length - 1 - i)
    else resolveLocalGo scopes name i

/-- `Resolver.resolveLocal(expr, name)` as the distance it records (`none`
when the loop falls through: the variable is assumed global). -/
def resolveLocal (scopes : List Scope) (name : String) : Option Nat :=
  resolveLocalGo scopes name scopes.length

/-- `resolveLocal` together with its effect on the interpreter's side table:
a hit calls `interpreter.resolve(expr, distance)`, a miss records nothing. -/
def resolveLocalInto (locals : List (Nat × Nat)) (scopes : List Scope)
    (exprId : Nat) (name : String) : List (Nat × Nat) :=
  match resolveLocal scopes name with
  | some d => localsSet locals exprId d
  | none => locals

/-! ### Concrete fixtures used by witnesses and counterexamples -/

/-- An IDENTIFIER token named `x`. -/
def xTok : Token := ⟨.identifier, "x", .nil, 1⟩

/-- An IDENTIFIER token named `a`. -/
def aTok : Token := ⟨.identifier, "a", .nil, 1⟩

/-- A PLUS operator token. -/
def plusTok : Token := ⟨.plus, "+", .nil, 1⟩

/-- A `return` keyword token. -/
def retTok : Token := ⟨.kwReturn, "return", .nil, 1⟩

/-- An initializer method `init() { return; }` (bare return), closing over
the globals. -/
def demoInitFn : FnData := ⟨⟨.identifier, "init", .nil, 1⟩, [], [.returnStmt retTok none], 0, true⟩

/-- A class `C` whose only method is the initializer above. -/
def demoCls : ClsData := .mk "C" none [("init", demoInitFn)]

/-- The program `var a; print a = 2;` (globals path: empty side table). -/
def demoAssignProg : List Stmt :=
  [.varStmt aTok none, .print (.assign 1 aTok (.lit (.num 2)))]

/-- A state whose side table maps expression 7 to distance 0 while the
environment at that distance lacks `x`. -/
def c3State : IState := ⟨[⟨[], none⟩], [], 0, [(7, 0)], []⟩

/-- A state whose side table maps expression 7 to distance 0 and whose
innermost environment binds `x` to 5. -/
def c3StateW : IState := ⟨[⟨[("x", .num 5)], none⟩], [], 0, [(7, 0)], []⟩

/-- The state after defining `a` (as nil) in the globals. -/
def c10St : IState := envDefine initIState 0 "a" .nil

/-- The globals' value map after assigning 2 to `a` there. -/
def c10Envs1 : List EnvData := [⟨[("clock", .clock), ("a", .num 2)], none⟩]

/-- The token list of `for (;;) print 1;`. -/
def c5Toks : List Token := scanTokens "for (;;) print 1;"

/-- Parser states over `c5Toks` at cursor `i` (no errors, no ids issued). -/
def c5St (i : Nat) : PState := ⟨c5Toks, i, 0, []⟩

/-- A scope stack `[{x}, {y}, {x}]` (innermost last): `x` shadowed, so the
innermost hit is index 2 and the recorded distance is 0. -/
def c4Scopes : List Scope := [[("x", true)], [("y", true)], [("x", false)]]

/-- Spec-side definition of the for-statement desugaring, following the
spec's words: `Block([init, While(cond', Block([body, Expression(inc)]))])`,
with the inner wrapping block omitted when `inc` is absent and the outer
block omitted when `init` is absent (`cond'` is already the parsed condition
or `Literal(true)`). -/
def desugarForSpec (init : Option Stmt) (cond : Expr) (inc : Option Expr) (body : Stmt) : Stmt :=
  let inner : Stmt :=
    match inc with
    | some e => .block [body, .exprStmt e]
    | none => body
  let w : Stmt := .whileStmt cond inner
  match init with
  | some i => .block [i, w]
  | none => w

/-! ## Theorems

Shared lemmas first, then one theorem per claim (with its witness or
counterexample where required). -/

theorem identifierLoop_tokens (n : Nat) : ∀ st, (identifierLoop n st).tokens = st.tokens := by
  induction n with
  | zero => intro st; rfl
  | succ n ih =>
    intro st
    unfold identifierLoop
    split
    · exact ih _
    · rfl

theorem digitsLoop_tokens (n : Nat) : ∀ st, (digitsLoop n st).tokens = st.tokens := by
  induction n with
  | zero => intro st; rfl
  | succ n ih =>
    intro st
    unfold digitsLoop
    split
    · exact ih _
    · rfl

theorem stringLoop_tokens (n : Nat) : ∀ st, (stringLoop n st).tokens = st.tokens := by
  induction n with
  | zero => intro st; rfl
  | succ n ih =>
    intro st
    unfold stringLoop
    split
    · split <;> exact ih _
    · rfl

theorem inlineCommentLoop_tokens (n : Nat) : ∀ st, (inlineCommentLoop n st).tokens = st.tokens := by
  induction n with
  | zero => intro st; rfl
  | succ n ih =>
    intro st
    unfold inlineCommentLoop
    split
    · exact ih _
    · rfl

theorem blockCommentLoop_tokens (n : Nat) : ∀ st, (blockCommentLoop n st).tokens = st.tokens := by
  induction n with
  | zero => intro st; rfl
  | succ n ih =>
    intro st
    unfold blockCommentLoop
    split
    · split <;> exact ih _
    · rfl

theorem reportScan_tokens (st : ScanState) (m : String) :
    (reportScan st m).tokens = st.tokens := rfl

theorem advanceC_tokens (st : ScanState) : ((advanceC st).2).tokens = st.tokens := rfl

theorem matchC_tokens (c : Char) (st : ScanState) :
    ((matchC c st).2).tokens = st.tokens := by
  unfold matchC
  split <;> rfl

theorem blockComment_tokens (n : Nat) (st : ScanState) :
    (blockComment n st).tokens = st.tokens := by
  show (if isAtEndS (blockCommentLoop n st) = true
      then reportScan (blockCommentLoop n st) "Unterminated comment."
      else (advanceC (advanceC (blockCommentLoop n st)).2).2).tokens = st.tokens
  split
  · rw [reportScan_tokens, blockCommentLoop_tokens]
  · rw [advanceC_tokens, advanceC_tokens, blockCommentLoop_tokens]

theorem mem_addToken {st : ScanState} {ty : TokenType} {lit : Lit} {t : Token}
    (h : t ∈ (addToken st ty lit).tokens) :
    t ∈ st.tokens ∨ (t.type = ty ∧ t.literal = lit) := by
  simp only [addToken, List.mem_append, List.mem_singleton] at h
  rcases h with h | h
  · exact Or.inl h
  · subst h; exact Or.inr ⟨rfl, rfl⟩

theorem mem_scanOperator2 {st : ScanState} {a b : TokenType} {t : Token}
    (h : t ∈ (scanOperator2 st a b).tokens) :
    t ∈ st.tokens ∨ t.literal = .nil := by
  have he : scanOperator2 st a b
      = addToken (matchC '=' st).2 (if (matchC '=' st).1 then a else b) .nil := rfl
  rw [he] at h
  rcases mem_addToken h with hm | ⟨_, hl⟩
  · rw [matchC_tokens] at hm; exact Or.inl hm
  · exact Or.inr hl

theorem mem_scanSlash {n : Nat} {st : ScanState} {t : Token}
    (h : t ∈ (scanSlash n st).tokens) :
    t ∈ st.tokens ∨ t.literal = .nil := by
  have he : scanSlash n st
      = (if (matchC '/' st).1 then inlineCommentLoop n (matchC '/' st).2
         else if (matchC '*' (matchC '/' st).2).1 then
           blockComment n (matchC '*' (matchC '/' st).2).2
         else addToken (matchC '*' (matchC '/' st).2).2 .slash .nil) := rfl
  rw [he] at h
  split at h
  · rw [inlineCommentLoop_tokens, matchC_tokens] at h; exact Or.inl h
  · split at h
    · rw [blockComment_tokens, matchC_tokens, matchC_tokens] at h; exact Or.inl h
    · rcases mem_addToken h with hm | ⟨_, hl⟩
      · rw [matchC_tokens, matchC_tokens] at hm; exact Or.inl hm
      · exact Or.inr hl

theorem mem_scanStringFinish {st : ScanState} {t : Token}
    (h : t ∈ (scanStringFinish st).tokens) :
    t ∈ st.tokens ∨ t.type = .string := by
  rcases mem_addToken h with hm | ⟨hty, _⟩
  · rw [advanceC_tokens] at hm; exact Or.inl hm
  · exact Or.inr hty

theorem mem_scanString {n : Nat} {st : ScanState} {t : Token}
    (h : t ∈ (scanString n st).tokens) :
    t ∈ st.tokens ∨ t.type = .string := by
  have he : scanString n st
      = (if isAtEndS (stringLoop n st) then reportScan (stringLoop n st) "Unterminated string."
         else scanStringFinish (stringLoop n st)) := rfl
  rw [he] at h
  split at h
  · rw [reportScan_tokens, stringLoop_tokens] at h; exact Or.inl h
  · rcases mem_scanStringFinish h with hm | hty
    · rw [stringLoop_tokens] at hm; exact Or.inl hm
    · exact Or.inr hty

theorem scanNumberFrac_tokens (n : Nat) (st : ScanState) :
    (scanNumberFrac n st).tokens = st.tokens := by
  unfold scanNumberFrac
  split
  · rw [digitsLoop_tokens, advanceC_tokens]
  · rfl

theorem mem_scanNumber {n : Nat} {st : ScanState} {t : Token}
    (h : t ∈ (scanNumber n st).tokens) :
    t ∈ st.tokens ∨ t.type = .number := by
  rcases mem_addToken h with hm | ⟨hty, _⟩
  · rw [scanNumberFrac_tokens, digitsLoop_tokens] at hm; exact Or.inl hm
  · exact Or.inr hty

theorem mem_scanIdentifier {n : Nat} {st : ScanState} {t : Token}
    (h : t ∈ (scanIdentifier n st).tokens) :
    t ∈ st.tokens ∨ t.literal = .nil := by
  rcases mem_addToken h with hm | ⟨_, hl⟩
  · rw [identifierLoop_tokens] at hm; exact Or.inl hm
  · exact Or.inr hl

theorem scanTokenChar_inv (n : Nat) (c : Char) (st : ScanState) (t : Token)
    (h : t ∈ (scanTokenChar n c st).tokens) :
    t ∈ st.tokens ∨ t.type = .number ∨ t.type = .string ∨ t.literal = .nil := by
  unfold scanTokenChar at h
  split at h
  all_goals first
    | (rcases mem_addToken h with hm | ⟨_, hl⟩
       · exact Or.inl hm
       · exact Or.inr (Or.inr (Or.inr hl)))
    | (rcases mem_scanOperator2 h with hm | hl
       · exact Or.inl hm
       · exact Or.inr (Or.inr (Or.inr hl)))
    | (rcases mem_scanSlash h with hm | hl
       · exact Or.inl hm
       · exact Or.inr (Or.inr (Or.inr hl)))
    | exact Or.inl h
    | (rcases mem_scanString h with hm | hty
       · exact Or.inl hm
       · exact Or.inr (Or.inr (Or.inl hty)))
    | (split_ifs at h with h1 h2
       · rcases mem_scanNumber h with hm | hty
         · exact Or.inl hm
         · exact Or.inr (Or.inl hty)
       · rcases mem_scanIdentifier h with hm | hl
         · exact Or.inl hm
         · exact Or.inr (Or.inr (Or.inr hl))
       · rw [reportScan_tokens] at h; exact Or.inl h)

theorem scanTokensGo_inv (n : Nat) : ∀ (st : ScanState) (t : Token),
    t ∈ (scanTokensGo n st).tokens →
    t ∈ st.tokens ∨ t.type = .number ∨ t.type = .string ∨ t.literal = .nil := by
  induction n with
  | zero => intro st t h; exact Or.inl h
  | succ n ih =>
    intro st t h
    unfold scanTokensGo at h
    split at h
    · rcases ih _ _ h with hm | hp
      · rcases scanTokenChar_inv n _ _ _ hm with hm2 | hp2
        · exact Or.inl hm2
        · exact Or.inr hp2
      · exact Or.inr hp
    · exact Or.inl h

/-- C7: every scanned token sequence ends with exactly one EOF token — but
the EOF token's line is the scanner's final line counter, which the
block-comment scanner can leave short of the true final source line: on
`"/*A\n/B"` the loop of `blockComment` stops with `peek() = '\n'` and
`peekNext() = '/'` and then consumes the newline without counting it, so the
EOF token carries line 1 while the source's final line is 2. -/
theorem c7_eof_final_line_bug :
    (scanTokens "/*A\n/B").getLast? = some ⟨.eof, "", .nil, 1⟩ ∧
    specFinalLine "/*A\n/B" = 2 ∧
    ((scanTokens "/*A\n/B").filter fun t => t.type == .eof).length = 1 := by
  decide

/-- C8: the block-comment loop `peek() !== "*" && peekNext() !== "/" &&
!isAtEnd()` stops as soon as the current character is `*` or the next is `/`,
not only at a full `*/`: on `"/* * */ print 1;"` scanning resumes inside the
comment and emits STAR and SLASH tokens before PRINT.  Also, an unterminated
comment with a newline (`"/*\nx"`) is reported at the scanner's current line
2, not the line 1 where the comment began. -/
theorem c8_block_comment_bug :
    scanTokens "/* * */ print 1;" =
      [⟨.star, "*", .nil, 1⟩, ⟨.slash, "/", .nil, 1⟩, ⟨.kwPrint, "print", .nil, 1⟩,
       ⟨.number, "1", .num 1, 1⟩, ⟨.semicolon, ";", .nil, 1⟩, ⟨.eof, "", .nil, 1⟩] ∧
    (scanTokensState "/*\nx").errors = [("Unterminated comment.", 2)] := by
  decide

/-- C9 counterexample: scanning `true` produces a TRUE token whose literal
is nil, not the boolean value the claim asserts. -/
theorem c9_true_literal_counterexample :
    scanTokens "true" = [⟨.kwTrue, "true", .nil, 1⟩, ⟨.eof, "", .nil, 1⟩] ∧
    (Token.mk .kwTrue "true" .nil 1).literal ≠ .bool true := by
  decide

/-- C9 (amended): `Scanner.identifier` calls `addToken` without a literal
argument, so every token other than NUMBER and STRING — keyword tokens
including TRUE and FALSE among them — carries the nil literal. -/
theorem c9_keyword_tokens_nil_literal (source : String) :
    ∀ t ∈ scanTokens source, t.type ≠ .number → t.type ≠ .string → t.literal = .nil := by
  intro t ht hn hs
  unfold scanTokens scanTokensState at ht
  simp only [List.mem_append, List.mem_singleton] at ht
  rcases ht with ht | ht
  · rcases scanTokensGo_inv _ _ _ ht with hm | hty | hty | hl
    · simp at hm
    · exact absurd hty hn
    · exact absurd hty hs
    · exact hl
  · subst ht; rfl

/-- C9 witness: the TRUE token scanned from `true` satisfies the amended
claim's hypotheses and carries the nil literal. -/
theorem c9_keyword_tokens_nil_literal_witness :
    (Token.mk .kwTrue "true" .nil 1).literal = .nil :=
  c9_keyword_tokens_nil_literal "true" ⟨.kwTrue, "true", .nil, 1⟩
    (by decide) (by decide) (by decide)

theorem PM_bind_apply {α β : Type} (m : PM α) (f : α → PM β) (s : PState) :
    (m >>= f) s = match m s with
      | (.ok a, s1) => f a s1
      | (.error e, s1) => (.error e, s1) := rfl

/-- C5: `Parser.forStatement` produces exactly the desugared tree
`Block([init, While(cond', Block([body, Expression(inc)]))])` from whatever
its clause parsers return: the condition clause yields `Literal(true)` when
the clause is absent (next token is `;`), the increment wrapper is omitted
when the increment is absent (next token is `)`), and the outer block is
omitted when the initializer is absent. -/
theorem c5_for_statement_desugars (n : Nat) (s0 s1 s2 s3 s4 s5 s6 s7 : PState)
    (lp semi rp : Token) (init : Option Stmt) (cond : Expr) (inc : Option Expr) (body : Stmt)
    (h1 : consumeT .leftParen "Expect '(' after 'for'." s0 = (.ok lp, s1))
    (h2 : parseForInit n s1 = (.ok init, s2))
    (h3 : parseForCond n s2 = (.ok cond, s3))
    (h4 : consumeT .semicolon "Expect ';' after loop condition." s3 = (.ok semi, s4))
    (h5 : parseForInc n s4 = (.ok inc, s5))
    (h6 : consumeT .rightParen "Expect ')' after for clauses." s5 = (.ok rp, s6))
    (h7 : parseStatement n s6 = (.ok body, s7)) :
    parseForStatement (n + 1) s0 = (.ok (desugarForSpec init cond inc body), s7) ∧
    (checkT s2 .semicolon = true → cond = Expr.lit (.bool true)) ∧
    (checkT s4 .rightParen = true → inc = none) := by
  refine ⟨?_, ?_, ?_⟩
  · unfold parseForStatement
    simp only [PM_bind_apply, h1, h2, h3, h4, h5, h6, h7]
    unfold desugarForSpec
    cases init <;> cases inc <;> rfl
  · intro hc
    cases n with
    | zero => simp [parseForCond, outOfFuelErr] at h3
    | succ m =>
      unfold parseForCond at h3
      simp only [PM_bind_apply, checkM, hc, if_true] at h3
      have hfst := congrArg Prod.fst h3
      simp only [Prod.fst] at hfst
      exact (Except.ok.inj hfst).symm
  · intro hc
    cases n with
    | zero => simp [parseForInc, outOfFuelErr] at h5
    | succ m =>
      unfold parseForInc at h5
      simp only [PM_bind_apply, checkM, hc, if_true] at h5
      have hfst := congrArg Prod.fst h5
      simp only [Prod.fst] at hfst
      exact (Except.ok.inj hfst).symm

/-- C5 witness: parsing (the tail of) `for (;;) print 1;` yields the bare
while loop with the defaulted true condition, no increment block and no
outer block. -/
theorem c5_for_statement_desugars_witness :
    parseForStatement 21 (c5St 1) =
      (.ok (Stmt.whileStmt (.lit (.bool true)) (.print (.lit (.num 1)))), c5St 8) :=
  (c5_for_statement_desugars 20 (c5St 1) (c5St 2) (c5St 3) (c5St 3) (c5St 4) (c5St 4)
      (c5St 5) (c5St 8) ⟨.leftParen, "(", .nil, 1⟩ ⟨.semicolon, ";", .nil, 1⟩
      ⟨.rightParen, ")", .nil, 1⟩ none (.lit (.bool true)) none (.print (.lit (.num 1)))
      rfl rfl rfl rfl rfl rfl rfl).1

/-- C2 (amended): for the binary `+` operator, two numbers add arithmetically
and a string on either side stringifies and concatenates both operands; in
every other case the raised runtime error's message is
"Operands must be two numbers, or one operand must be a string." (not the
message the claim states). -/
theorem c2_plus_operator (insts : List InstData) (optr : Token) (l r : Value)
    (hop : optr.type = .plus) :
    (∀ a b, l = .num a → r = .num b → binaryOperator insts optr l r = .ok (.num (a + b))) ∧
    ((isStrV l || isStrV r) = true →
      binaryOperator insts optr l r = .ok (.str (stringify insts l ++ stringify insts r))) ∧
    ((isStrV l || isStrV r) = false → (isNumV l && isNumV r) = false →
      binaryOperator insts optr l r =
        .error (.runtime optr "Operands must be two numbers, or one operand must be a string.")) := by
  refine ⟨?_, ?_, ?_⟩
  · intro a b hl hr
    subst hl; subst hr
    simp [binaryOperator, hop, isStrV, isNumV, numOf]
  · intro h
    simp [binaryOperator, hop, h]
  · intro h1 h2
    simp [binaryOperator, hop, h1, h2]

/-- C2 witness: `1 + 2` evaluates to the arithmetic sum. -/
theorem c2_plus_operator_witness :
    binaryOperator [] plusTok (.num 1) (.num 2) = .ok (.num (1 + 2)) :=
  (c2_plus_operator [] plusTok (.num 1) (.num 2) rfl).1 1 2 rfl rfl

/-- C2 counterexample: on `true + nil` the interpreter raises
"Operands must be two numbers, or one operand must be a string.", which is
not the message "Operands must be two numbers or two strings." the claim
asserts. -/
theorem c2_plus_message_counterexample :
    binaryOperator [] plusTok (.bool true) .nil =
      .error (.runtime plusTok "Operands must be two numbers, or one operand must be a string.") ∧
    "Operands must be two numbers, or one operand must be a string." ≠
      "Operands must be two numbers or two strings." :=
  ⟨rfl, by decide⟩

/-- C3 (amended): `lookUpVariable` with a side-table distance `d` reads from
the environment `d` hops outward from the current one (raising the
`RangeError` when the chain is shorter than `d`), and a name missing at that
resolved environment yields the JS `undefined` **without** a runtime error;
only the no-table-entry path reads the globals, where a missing name raises
"Undefined variable 'x'.". -/
theorem c3_lookup_variable (st : IState) (name : Token) (id : Nat) :
    (∀ d, lookupLocals st.locals id = some d →
      lookUpVariable st name id = envGetAt st.envs st.env d name.lexeme ∧
      (∀ a, ancestorRef st.envs st.env d = some a →
        (aGet (heapEnv st.envs a).values name.lexeme = none →
          lookUpVariable st name id = .ok .undefined) ∧
        (∀ v, aGet (heapEnv st.envs a).values name.lexeme = some v →
          lookUpVariable st name id = .ok v)) ∧
      (ancestorRef st.envs st.env d = none →
        lookUpVariable st name id =
          .error (.range "Distance exceeds the number of ancestor environments."))) ∧
    (lookupLocals st.locals id = none → (heapEnv st.envs 0).enclosing = none →
      (∀ v, aGet (heapEnv st.envs 0).values name.lexeme = some v →
        lookUpVariable st name id = .ok v) ∧
      (aGet (heapEnv st.envs 0).values name.lexeme = none →
        lookUpVariable st name id =
          .error (.runtime name ("Undefined variable '" ++ name.lexeme ++ "'.")))) := by
  constructor
  · intro d hd
    refine ⟨?_, ?_, ?_⟩
    · simp [lookUpVariable, hd]
    · intro a ha
      constructor
      · intro hnone
        simp [lookUpVariable, hd, envGetAt, ha, hnone]
      · intro v hv
        simp [lookUpVariable, hd, envGetAt, ha, hv]
    · intro hnone
      simp [lookUpVariable, hd, envGetAt, hnone]
  · intro hd henc
    constructor
    · intro v hv
      simp [lookUpVariable, hd, envChainGet, hv]
    · intro hnone
      simp [lookUpVariable, hd, envChainGet, hnone, henc]

/-- C3 witness: with side-table distance 0 and `x` bound at the resolved
environment, the lookup returns the bound value. -/
theorem c3_lookup_variable_witness : lookUpVariable c3StateW xTok 7 = .ok (.num 5) :=
  (((c3_lookup_variable c3StateW xTok 7).1 0 rfl).2.1 0 rfl).2 (.num 5) rfl

/-- C3 counterexample: with side-table distance 0 and `x` missing at the
resolved environment, the lookup yields `undefined` and does not raise the
runtime error "Undefined variable 'x'." the claim asserts. -/
theorem c3_missing_name_counterexample :
    lookUpVariable c3State xTok 7 = .ok .undefined ∧
    lookUpVariable c3State xTok 7 ≠
      .error (.runtime xTok "Undefined variable 'x'.") := by
  constructor
  · rfl
  · intro h
    rw [show lookUpVariable c3State xTok 7 = .ok .undefined from rfl] at h
    exact Except.noConfusion h

/-- C6: `visitBlockStmt` runs the block's children through `executeBlock` in
a newly created environment whose parent is the environment current at block
entry, and `executeBlock` (the source's `try`/`finally`) restores the
previous current-environment pointer on every exit path — normal completion,
a propagating `LoxReturn`, a propagating runtime error, and even fuel
exhaustion. -/
theorem c6_block_restores_environment (n : Nat) (stmts : List Stmt) (st : IState) :
    execStmt (n + 1) (.block stmts) st =
      executeBlock n stmts st.envs.length
        { st with envs := st.envs ++ [⟨[], some st.env⟩] } ∧
    (∀ (m : Nat) (envRef : Nat) (s : IState), ((executeBlock m stmts envRef s).2).env = s.env) := by
  constructor
  · rfl
  · intro m envRef s
    cases m with
    | zero => rfl
    | succ m => rfl

/-- C10: evaluating an `Assign` expression evaluates the right-hand side
once, stores the value at the resolved distance when the node is in the side
table and in the globals otherwise, and the expression itself evaluates to
the assigned value; concretely, `var a; print a = 2;` prints `2`. -/
theorem c10_assign_evaluates_to_value (n id : Nat) (name : Token) (rhs : Expr)
    (st st1 : IState) (v : Value)
    (h : evalExpr n rhs st = (.val v, st1)) :
    (∀ d envs1, lookupLocals st1.locals id = some d →
      envAssignAt st1.envs st1.env d name.lexeme v = .ok envs1 →
      evalExpr (n + 1) (.assign id name rhs) st = (.val v, { st1 with envs := envs1 })) ∧
    (∀ envs1, lookupLocals st1.locals id = none →
      envChainAssign st1.envs (st1.envs.length + 1) 0 name v = .ok envs1 →
      evalExpr (n + 1) (.assign id name rhs) st = (.val v, { st1 with envs := envs1 })) ∧
    (execStmts 9 demoAssignProg initIState).2.output = ["2"] := by
  refine ⟨?_, ?_, ?_⟩
  · intro d envs1 hd hassign
    simp [evalExpr, h, hd, hassign]
  · intro envs1 hd hassign
    simp [evalExpr, h, hd, hassign]
  · rfl

/-- C10 witness: assigning `2` to the global `a` evaluates to `2` and
updates the globals. -/
theorem c10_assign_evaluates_to_value_witness :
    evalExpr 2 (.assign 1 aTok (.lit (.num 2))) c10St
      = (.val (.num 2), { c10St with envs := c10Envs1 }) :=
  ((c10_assign_evaluates_to_value 1 1 aTok (.lit (.num 2)) c10St c10St (.num 2) rfl).2.1)
    c10Envs1 rfl rfl

theorem resolveLocalGo_no_hit (scopes : List Scope) (name : String) :
    ∀ k, (∀ j, j < k → scopeHas (scopes.getD j []) name = false) →
      resolveLocalGo scopes name k = none := by
  intro k
  induction k with
  | zero => intro _; rfl
  | succ k ih =>
    intro h
    unfold resolveLocalGo
    rw [h k (Nat.lt_succ_self k)]
    simp only [Bool.false_eq_true, if_false]
    exact ih fun j hj => h j (Nat.lt_succ_of_lt hj)

theorem resolveLocalGo_hit (scopes : List Scope) (name : String) (i : Nat)
    (hhit : scopeHas (scopes.getD i []) name = true) :
    ∀ k, i < k → (∀ j, i < j → j < k → scopeHas (scopes.getD j []) name = false) →
      resolveLocalGo scopes name k = some (scopes.length - 1 - i) := by
  intro k
  induction k with
  | zero => intro h _; exact absurd h (Nat.not_lt_zero i)
  | succ k ih =>
    intro hik habove
    unfold resolveLocalGo
    by_cases hk : i = k
    · subst hk
      rw [hhit]
      simp
    · have hik' : i < k := by omega
      rw [habove k hik' (Nat.lt_succ_self k)]
      simp only [Bool.false_eq_true, if_false]
      exact ih hik' fun j h1 h2 => habove j h1 (Nat.lt_succ_of_lt h2)

theorem lookupLocals_map_set (l : List (Nat × Nat)) (id d : Nat)
    (h : (lookupLocals l id).isSome) :
    lookupLocals (l.map fun kv => if kv.1 = id then (id, d) else kv) id = some d := by
  induction l with
  | nil => simp [lookupLocals] at h
  | cons kv tl ih =>
    obtain ⟨k, v⟩ := kv
    by_cases hk : k = id
    · subst hk
      simp only [List.map_cons]
      simp [lookupLocals]
    · simp only [List.map_cons, if_neg hk]
      rw [show lookupLocals ((k, v) :: List.map (fun kv => if kv.1 = id then (id, d) else kv) tl) id
          = lookupLocals (List.map (fun kv => if kv.1 = id then (id, d) else kv) tl) id from by
        simp [lookupLocals, hk]]
      apply ih
      simpa [lookupLocals, hk] using h

theorem lookupLocals_append_self (l : List (Nat × Nat)) (id d : Nat)
    (h : lookupLocals l id = none) :
    lookupLocals (l ++ [(id, d)]) id = some d := by
  induction l with
  | nil => simp [lookupLocals]
  | cons kv tl ih =>
    obtain ⟨k, v⟩ := kv
    by_cases hk : k = id
    · simp [lookupLocals, hk] at h
    · simp only [List.cons_append]
      rw [show lookupLocals ((k, v) :: (tl ++ [(id, d)])) id
          = lookupLocals (tl ++ [(id, d)]) id from by simp [lookupLocals, hk]]
      apply ih
      simpa [lookupLocals, hk] using h

theorem lookupLocals_localsSet (l : List (Nat × Nat)) (id d : Nat) :
    lookupLocals (localsSet l id d) id = some d := by
  unfold localsSet
  split
  · exact lookupLocals_map_set l id d (by assumption)
  · refine lookupLocals_append_self l id d ?_
    rename_i h
    cases hl : lookupLocals l id with
    | none => rfl
    | some x => rw [hl] at h; simp at h

/-- C4: `Resolver.resolveLocal` searches the scope stack from innermost
(top, index `n-1`) to outermost; at the first scope containing the name — at
index `i` from the bottom of a stack of size `n` — it records distance
`n-1-i` for the given expression node in the interpreter's side table and
stops; when no scope contains the name nothing is recorded (the variable is
treated as global). -/
theorem c4_resolve_local_distance (scopes : List Scope) (name : String)
    (locals : List (Nat × Nat)) (id : Nat) :
    (∀ i, i < scopes.length → scopeHas (scopes.getD i []) name = true →
      (∀ j, i < j → j < scopes.length → scopeHas (scopes.getD j []) name = false) →
      resolveLocal scopes name = some (scopes.length - 1 - i) ∧
      lookupLocals (resolveLocalInto locals scopes id name) id
        = some (scopes.length - 1 - i)) ∧
    ((∀ j, j < scopes.length → scopeHas (scopes.getD j []) name = false) →
      resolveLocal scopes name = none ∧ resolveLocalInto locals scopes id name = locals) := by
  constructor
  · intro i hi hhit habove
    have hres : resolveLocal scopes name = some (scopes.length - 1 - i) :=
      resolveLocalGo_hit scopes name i hhit scopes.length hi habove
    refine ⟨hres, ?_⟩
    unfold resolveLocalInto
    rw [hres]
    exact lookupLocals_localsSet locals id (scopes.length - 1 - i)
  · intro hnone
    have hres : resolveLocal scopes name = none :=
      resolveLocalGo_no_hit scopes name scopes.length hnone
    refine ⟨hres, ?_⟩
    unfold resolveLocalInto
    rw [hres]

/-- C4 witness: on the shadowed stack `[{x}, {y}, {x}]` the innermost `x`
(index 2 of 3) wins with distance 0, and the side table records it. -/
theorem c4_resolve_local_distance_witness :
    resolveLocal c4Scopes "x" = some 0 ∧
    lookupLocals (resolveLocalInto [] c4Scopes 5 "x") 5 = some 0 :=
  (c4_resolve_local_distance c4Scopes "x" [] 5).1 2 (by decide) (by decide)
    (fun j h1 h2 => by exfalso; simp [c4Scopes] at h2; omega)

theorem heapEnv_append (envs : List EnvData) (e : EnvData) :
    heapEnv (envs ++ [e]) envs.length = e := by
  unfold heapEnv
  rw [List.getD_eq_getElem?_getD, List.getElem?_append_right (Nat.le_refl _)]
  simp

/-- C1: calling a class whose `init` method exists allocates a fresh
instance, invokes the initializer bound to that instance (its closure
environment defines `this` as exactly the new instance), and the class call
evaluates to the instance; moreover every invocation of a function with the
`isInitializer` flag yields the `this` bound in its closure — whether the
body falls off the end, exits by bare `return;`, exits by `return value;`
(the payload is discarded), or even throws — never the return payload. -/
theorem c1_initializer_returns_instance (n : Nat) (c : ClsData) (f0 : FnData)
    (args : List Value) (st : IState) (hinit : findMethod c "init" = some f0) :
    (loxClassCall (n + 1) c args st =
      (let st1 : IState := { st with insts := st.insts ++ [⟨c, []⟩] }
       let bound := bindInstance f0 st.insts.length st1
       match loxFunctionCall n bound.1 args bound.2 with
       | (.oot, st3) => (.oot, st3)
       | (.err e, st3) => (.err e, st3)
       | (.val _, st3) => (.val (.inst st.insts.length), st3))) ∧
    ((heapEnv ((bindInstance f0 st.insts.length { st with insts := st.insts ++ [⟨c, []⟩] }).2).envs
        ((bindInstance f0 st.insts.length { st with insts := st.insts ++ [⟨c, []⟩] }).1).closure).values
      = [("this", .inst st.insts.length)]) ∧
    (∀ (m : Nat) (f : FnData) (args2 : List Value) (s : IState) (r : ERes) (s' : IState),
      f.isInitializer = true → loxFunctionCall (m + 1) f args2 s = (r, s') →
      r = .oot ∨ r = .val (forceReturnThis f s')) ∧
    (∀ (m : Nat) (f : FnData) (args2 : List Value) (s : IState) (v : Value) (s2 : IState),
      f.isInitializer = true →
      executeBlock m f.body s.envs.length
        { s with envs := s.envs ++ [⟨bindParams f.params args2, some f.closure⟩] } = (.ret v, s2) →
      loxFunctionCall (m + 1) f args2 s = (.val (forceReturnThis f s2), s2)) ∧
    (∀ (f : FnData) (s : IState) (w : Value),
      aGet (heapEnv s.envs f.closure).values "this" = some w → forceReturnThis f s = w) := by
  refine ⟨?_, ?_, ?_, ?_, ?_⟩
  · simp only [loxClassCall, hinit]
  · exact congrArg EnvData.values (heapEnv_append _ _)
  · intro m f args2 s r s' hinitf hcall
    rcases heb : executeBlock m f.body s.envs.length
        { s with envs := s.envs ++ [⟨bindParams f.params args2, some f.closure⟩] } with ⟨res, s2⟩
    unfold loxFunctionCall at hcall
    simp only [heb] at hcall
    cases res with
    | done =>
      simp only [hinitf, if_true] at hcall
      injection hcall with h1 h2
      subst h2
      exact Or.inr h1.symm
    | ret v =>
      simp only [hinitf, if_true] at hcall
      injection hcall with h1 h2
      subst h2
      exact Or.inr h1.symm
    | err e =>
      simp only [hinitf, if_true] at hcall
      injection hcall with h1 h2
      subst h2
      exact Or.inr h1.symm
    | oot =>
      injection hcall with h1 h2
      subst h2
      exact Or.inl h1.symm
  · intro m f args2 s v s2 hinitf heb
    unfold loxFunctionCall
    simp only [heb, hinitf, if_true]
  · intro f s w h
    unfold forceReturnThis
    rw [h]

/-- C1 witness: calling the class `C { init() { return; } }` evaluates to
the freshly allocated instance. -/
theorem c1_initializer_returns_instance_witness :
    (loxClassCall 100 demoCls [] initIState).1 = .val (.inst 0) := by
  show (loxClassCall (99 + 1) demoCls [] initIState).1 = .val (.inst 0)
  rw [(c1_initializer_returns_instance 99 demoCls demoInitFn [] initIState rfl).1]
  rfl
